import Mathlib

/-!
Shallow embedding of the core of the Secos_rust 32-bit x86 kernel
(src/rust_kernel/kernel_core), together with proofs checking the
natural-language specification against the code.

Modelling conventions:
* machine integers (`u32`, `usize` on the 32-bit target) are `Nat` with an
  explicit `% 2 ^ 32` wherever the source arithmetic can wrap; the kernel is
  built with `cargo build --release` (see build.rs), so arithmetic overflow
  wraps rather than panicking;
* a Rust `panic!` (including a slice/array bounds-check panic) is `none` /
  `Except.error`;
* physical memory is a function `Nat → Nat` from byte address to the 32-bit
  word stored at that address;
* the fixed-size byte arrays (the physical allocator bitmap, the per-space
  virtual allocator bitmap, the shared-mappings table) are `List Nat` /
  `List (Option Nat)` state passed explicitly.
-/

namespace Secos

/-- kernel_core/src/paging/pagemem.rs: PAGE_SIZE. -/
def PAGE_SIZE : Nat := 0x1000

/-- pagemem.rs: PAGE_PRESENT = 1 << 0. -/
def PAGE_PRESENT : Nat := 1

/-- pagemem.rs: PAGE_WRITE = 1 << 1. -/
def PAGE_WRITE : Nat := 2

/-- pagemem.rs: PAGE_USER = 1 << 2. -/
def PAGE_USER : Nat := 4

/-- paging/mod.rs: KERNEL_PHYS_WINDOW_BASE (identity window, so 0). -/
def KERNEL_PHYS_WINDOW_BASE : Nat := 0

/-- paging/mod.rs: KERNEL_PHYS_WINDOW_SIZE = 128 MiB. -/
def KERNEL_PHYS_WINDOW_SIZE : Nat := 128 * 1024 * 1024

/-- paging/mod.rs: KERNEL_VMEM_BASE. -/
def KERNEL_VMEM_BASE : Nat := 0x13370000

/-- physmem.rs: BITMAP_SIZE = (0x7fe0000 - 0x400000) / 4096. -/
def BITMAP_SIZE : Nat := 0x7be0

/-- physmem.rs: BASE_ALLOCATOR. -/
def BASE_ALLOCATOR : Nat := 0x400000

/-- Wrapping 32-bit subtraction `x - y` (release-build `u32` semantics). -/
def u32sub (x y : Nat) : Nat := (x % 2 ^ 32 + (2 ^ 32 - y % 2 ^ 32)) % 2 ^ 32

/-- physmem.rs, `PhysMem::alloc_phys`: scan of ALLOCATOR_BITMAP for the first
byte equal to 0; `none` when every byte is non-zero. -/
def findFreeIndex : List Nat → Option Nat
  | [] => none
  | b :: rest => if b = 0 then some 0 else (findFreeIndex rest).map (· + 1)

/-- physmem.rs, `PhysMem::alloc_phys`: mark the first free byte used and
return `BASE_ALLOCATOR + i * PAGE_SIZE`; `none` is the "Out of memory"
panic. The state is the allocator bitmap. -/
def alloc_phys (s : List Nat) : Option (Nat × List Nat) :=
  match findFreeIndex s with
  | some i => some (BASE_ALLOCATOR + i * PAGE_SIZE, s.set i 1)
  | none => none

/-- physmem.rs, `PhysMem::free_phys`: the bitmap index
`((addr - BASE_ALLOCATOR) >> 12)`, with the release-build wrapping `u32`
subtraction of the source. -/
def freePhysIndex (addr : Nat) : Nat := u32sub addr BASE_ALLOCATOR >>> 12

/-- physmem.rs, `PhysMem::free_phys`. `none` covers the three source panics
(non-aligned, out of range, non-allocated) and also the Rust bounds-check
panic on `ALLOCATOR_BITMAP[index]` when `index` is not below the bitmap
length. `addr % 0x1000` is the source's `addr.0 & 0xfff`. The caller passes
a `u32`, i.e. `addr < 2 ^ 32`. -/
def free_phys (s : List Nat) (addr : Nat) : Option (List Nat) :=
  if addr % 0x1000 ≠ 0 then none
  else if freePhysIndex addr > BITMAP_SIZE ∨ addr < BASE_ALLOCATOR then none
  else if freePhysIndex addr < s.length then
    if s.getD (freePhysIndex addr) 1 ≠ 1 then none
    else some (s.set (freePhysIndex addr) 0)
  else none

/-- physmem.rs, `PhysMem::translate`: window check with the release-build
wrapping `u32` addition `paddr.0 + (size as u32)`; `none` is the panic. -/
def PhysMem.translate (paddr size : Nat) : Option Nat :=
  if (paddr + size) % 2 ^ 32 > KERNEL_PHYS_WINDOW_SIZE then none
  else some ((paddr + KERNEL_PHYS_WINDOW_BASE) % 2 ^ 32)

/-- syscalls.rs, `handle_syscall`: what each arm of the `match` on
`ctx.regs.eax` does, as a descriptor. -/
inductive SyscallAction where
  | exitTask
  | write (buf len : Nat)
  | printNumber (n : Nat)
  | mmapShared (vaddr id : Nat)
  | unimplementedPanic (eax : Nat)
deriving DecidableEq

/-- syscalls.rs, `handle_syscall`: the dispatcher matches the full 32-bit
`ctx.regs.eax` against the literals 1, 2, 3, 10, with a panicking default
arm. Arguments come from ECX and EDX as in the source. -/
def handle_syscall (eax ecx edx : Nat) : SyscallAction :=
  if eax = 1 then SyscallAction.exitTask
  else if eax = 2 then SyscallAction.write ecx edx
  else if eax = 3 then SyscallAction.printNumber ecx
  else if eax = 10 then SyscallAction.mmapShared ecx edx
  else SyscallAction.unimplementedPanic eax

/-- tasks.rs, `Task::new` lines 56-60: the name check and the copy into the
zero-initialised 16-byte array. `none` is the "Task name len > 16" panic. -/
def taskName (name : List Nat) : Option (List Nat) :=
  if name.length > 16 then none
  else some (name ++ List.replicate (16 - name.length) 0)

/-- interrupts.rs, `Registers`: eight u32 fields, repr(C). -/
def registersSize : Nat := 8 * 4

/-- interrupts.rs, `InterruptFrame`: five u32 fields, repr(C). -/
def interruptFrameSize : Nat := 5 * 4

/-- interrupts.rs, `InterruptContext`: regs + nr + err + frame, repr(C). -/
def interruptContextSize : Nat := registersSize + 4 + 4 + interruptFrameSize

/-- tasks.rs, `Task::new`: the saved `kernel_sp`. Starting from the top of
the one-page kernel stack, the code subtracts `size_of::<InterruptContext>()`
(the fake context), then 4 (the `resume_from_intr` return address), then
three times 4 (padding words), then 4 (the saved DS selector). -/
def taskNewKernelSp (kernelStackBase : Nat) : Nat :=
  u32sub (u32sub (u32sub (u32sub (u32sub (u32sub
    ((kernelStackBase + 1 * PAGE_SIZE) % 2 ^ 32)
    interruptContextSize) 4) 4) 4) 4) 4

/-- tasks.rs, `switch_to`: the value passed to `TSS.update_esp0`, namely
`next.kernel_sp + 20 + size_of::<InterruptContext>()` (wrapping u32 add). -/
def switchToEsp0 (nextKernelSp : Nat) : Nat :=
  (nextKernelSp + 20 + interruptContextSize) % 2 ^ 32

/-- tasks.rs, `switch_to`: the instructions of the inline asm block that
have an observable effect, in program order. -/
inductive AsmStep where
  | pushDs
  | saveEspToPrev
  | writeCr3 (v : Nat)
  | loadEspFromNext
  | popSegRegs
deriving DecidableEq

/-- tasks.rs, `switch_to` inline asm: `push eax` (saved DS); `cmp ecx, edx`
with ECX = prev's page-directory physical address and EDX = next's;
`je 2f` jumps over `mov dword ptr [edi], esp` (the store into
`prev.kernel_sp`) when they are equal; label `2:` is `mov cr3, edx`, which
both paths execute; then `mov esp, next.kernel_sp` and the segment-register
pops. -/
def switch_to_trace (prevPgd nextPgd : Nat) : List AsmStep :=
  [AsmStep.pushDs] ++
  (if prevPgd = nextPgd then [] else [AsmStep.saveEspToPrev]) ++
  [AsmStep.writeCr3 nextPgd, AsmStep.loadEspFromNext, AsmStep.popSegRegs]

/-- pagemem.rs, `Mapping`: the result of `PageDirectory::translate`. -/
structure Mapping where
  pde : Option Nat
  pte : Option Nat
  page : Option Nat
deriving DecidableEq

/-- pagemem.rs, `PageDirectoryEntry::get_paddr` / `PageTableEntry::get_paddr`:
`self.0 & !0xfff` on a 32-bit entry. -/
def getPaddrField (e : Nat) : Nat := e &&& 0xfffff000

/-- A 32-bit read of physical memory through `PhysMem::translate(paddr, 4)`;
`none` when the window check panics. -/
def readPhysU32 (mem : Nat → Nat) (paddr : Nat) : Option Nat :=
  match PhysMem.translate paddr 4 with
  | none => none
  | some va => some (mem va % 2 ^ 32)

/-- pagemem.rs, `PageDirectory::get_entry`: read the 32-bit entry at
`table + index * size_of::<u32>()`. -/
def PageDirectory.get_entry (mem : Nat → Nat) (table index : Nat) :
    Option Nat :=
  readPhysU32 mem ((table + index * 4) % 2 ^ 32)

/-- pagemem.rs, `PageTable::get_entry`: identical to the directory case. -/
def PageTable.get_entry (mem : Nat → Nat) (table index : Nat) : Option Nat :=
  readPhysU32 mem ((table + index * 4) % 2 ^ 32)

/-- pagemem.rs, `PageDirectory::translate`: compute the PDE/PTE indices,
set `ret.pde` to the PDE slot's physical address, read the PDE and set
`ret.pte` to `pde.get_paddr()`, read the PTE in that table and set
`ret.page` to `pte.get_paddr()`. The source never tests PAGE_PRESENT on
either entry; the only `none` outcomes are the window-check panics inside
the two reads. -/
def PageDirectory.translate (mem : Nat → Nat) (table vaddr : Nat) :
    Option Mapping :=
  let pdeIndex := (vaddr >>> 22) &&& 0x3ff
  let pteIndex := (vaddr >>> 12) &&& 0x3ff
  let pdeSlot := (table + pdeIndex * 4) % 2 ^ 32
  match PageDirectory.get_entry mem table pdeIndex with
  | none => none
  | some pde =>
    let ptbBase := getPaddrField pde
    match PageTable.get_entry mem ptbBase pteIndex with
    | none => none
    | some pte =>
      some { pde := some pdeSlot, pte := some ptbBase,
             page := some (getPaddrField pte) }

/-- virtmem.rs, `free_virt_pages` loop body: translate each page of the
range, panic ("Trying to free invalid physical memory") if `mapping.page`
is `None`, otherwise hand `mapping.page.unwrap()` to `PhysMem::free_phys`.
The first argument pair is the physical memory and the page-directory
physical address; the last is the physical-allocator bitmap. -/
def freeVirtLoop (mem : Nat → Nat) (pgdTable : Nat) :
    Nat → Nat → List Nat → Option (List Nat)
  | _, 0, physBm => some physBm
  | vaddr, n + 1, physBm =>
    match PageDirectory.translate mem pgdTable vaddr with
    | none => none
    | some m =>
      match m.page with
      | none => none
      | some p =>
        match free_phys physBm p with
        | none => none
        | some physBm1 => freeVirtLoop mem pgdTable (vaddr + PAGE_SIZE) n physBm1

/-- Write 0 into `n` consecutive bytes of a bitmap starting at index `i`
(the final slice update of `free_virt_pages`). -/
def clearRange (bm : List Nat) (i : Nat) : Nat → List Nat
  | 0 => bm
  | n + 1 => clearRange (bm.set i 0) (i + 1) n

/-- virtmem.rs, `VirtMem::free_virt_pages`: bitmap index from the wrapping
`u32` subtraction `(addr.0 - KERNEL_VMEM_BASE) / PAGE_SIZE`; the slice
accesses `allocator_bitmap[bitmap_index..bitmap_index + npages]` panic when
the upper bound exceeds the bitmap length (the `pages_allocated` value the
source computes from the first slice is never used); then the loop over
`(addr..addr + npages * PAGE_SIZE).step_by(PAGE_SIZE)` with wrapping `u32`
bounds; finally the bitmap bytes are cleared. Returns the new physical
allocator bitmap and the new per-space bitmap, or `none` on any panic. -/
def VirtMem.free_virt_pages (mem : Nat → Nat) (pgdTable : Nat)
    (physBm virtBm : List Nat) (addr npages : Nat) :
    Option (List Nat × List Nat) :=
  let bitmapIndex := u32sub addr KERNEL_VMEM_BASE / PAGE_SIZE
  if bitmapIndex + npages > virtBm.length then none
  else
    let startM := addr % 2 ^ 32
    let endM := (addr + npages * PAGE_SIZE) % 2 ^ 32
    let count := if startM < endM
      then (endM - startM + (PAGE_SIZE - 1)) / PAGE_SIZE else 0
    match freeVirtLoop mem pgdTable startM count physBm with
    | none => none
    | some physBm1 => some (physBm1, clearRange virtBm bitmapIndex npages)

/-- All-zero physical memory: every PDE reads as 0, i.e. not present. -/
def zeroMem : Nat → Nat := fun _ => 0

/-- Physical memory for the C2 scenario: the page directory lives at
0x1000; the PDE for KERNEL_VMEM_BASE (slot 0x1000 + 0x4c * 4 = 0x1130) is
0x2003 — page table at 0x2000, present and writable; the PTE for
KERNEL_VMEM_BASE (slot 0x2000 + 0x370 * 4 = 0x2dc0) is 0x500000 — address
bits set but the present bit clear. Everything else reads 0. -/
def memC2 : Nat → Nat := fun a =>
  if a = 0x1130 then 0x2003 else if a = 0x2dc0 then 0x500000 else 0

/-- syscalls.rs, `sys_mmap_shared`: MAX_SHARED_MAPPINGS. -/
def MAX_SHARED_MAPPINGS : Nat := 10

/-- The distinct fatal outcomes of `sys_mmap_shared`: the handler's own
range-check panic ("invalid shared mapping id"), the Rust bounds-check
panic on `MAPPINGS[id]`, and the allocator's out-of-memory panic. -/
inductive MmapPanic where
  | invalidId
  | indexOutOfBounds
  | outOfMemory
deriving DecidableEq

/-- syscalls.rs, `sys_mmap_shared`: the range check is
`id < 0 || id > MAX_SHARED_MAPPINGS` in the source; `id < 0` can never hold
for the unsigned `id` and is dropped here. After the check, `MAPPINGS[id]`
is read (a bounds-check panic when `id` is not below the table length); a
missing entry is populated from `alloc_phys` (`alloc_phys_zeroed` also
zeroes the frame, which needs no modelling here); finally the frame is
mapped at `vaddr` via `map_raw` with present|user|write — returned here as
the new allocator bitmap, the new table, the target `vaddr` and the raw PTE
that gets installed. -/
def sys_mmap_shared (physBm : List Nat) (mappings : List (Option Nat))
    (vaddr id : Nat) :
    Except MmapPanic (List Nat × List (Option Nat) × Nat × Nat) :=
  if id > MAX_SHARED_MAPPINGS then Except.error MmapPanic.invalidId
  else if hid : id < mappings.length then
    match mappings.get ⟨id, hid⟩ with
    | none =>
      match alloc_phys physBm with
      | none => Except.error MmapPanic.outOfMemory
      | some (page, physBm1) =>
        Except.ok (physBm1, mappings.set id (some page), vaddr,
          page ||| PAGE_PRESENT ||| PAGE_USER ||| PAGE_WRITE)
    | some page =>
      Except.ok (physBm, mappings, vaddr,
        page ||| PAGE_PRESENT ||| PAGE_USER ||| PAGE_WRITE)
  else Except.error MmapPanic.indexOutOfBounds

/-- Claim C4, counterexample: when prev and next have the same
page-directory physical address (here 0x400000), `switch_to` still executes
`mov cr3, edx` — the `je 2f` branch target is that very instruction — so
the CR3 reload is not skipped as the claim states. -/
theorem switch_to_cr3_write_not_skipped :
    AsmStep.writeCr3 0x400000 ∈ switch_to_trace 0x400000 0x400000 := by
  decide

/-- Claim C4, amended: in `switch_to(prev, next)` the write of next's
page-directory physical address to CR3 is unconditional (it happens even
when the two address spaces are equal); the conditional branch only skips
the store of the current ESP into `prev.kernel_sp`, which is executed
exactly when the two page-directory physical addresses differ. -/
theorem switch_to_trace_spec (p n : Nat) :
    AsmStep.writeCr3 n ∈ switch_to_trace p n ∧
    (AsmStep.saveEspToPrev ∈ switch_to_trace p n ↔ p ≠ n) := by
  by_cases h : p = n <;> simp [switch_to_trace, h]

/-- Claim C5, counterexample: `handle_syscall` does not behave identically
on `eax` and `eax & 0xff`: EAX = 0x102 (low byte 2) falls to the panicking
default arm, while EAX = 2 dispatches the write handler. -/
theorem handle_syscall_low_byte_cex :
    handle_syscall 0x102 7 6 ≠ handle_syscall (0x102 &&& 0xff) 7 6 := by
  decide

/-- Claim C5, amended: the dispatcher selects the operation from the full
32-bit EAX, not from its low byte: every EAX other than 1, 2, 3 and 10 —
including values whose low byte is a valid call number, such as 0x102 —
reaches the panicking default arm instead of a handler. -/
theorem handle_syscall_full_eax (eax ecx edx : Nat)
    (h1 : eax ≠ 1) (h2 : eax ≠ 2) (h3 : eax ≠ 3) (h4 : eax ≠ 10) :
    handle_syscall eax ecx edx = SyscallAction.unimplementedPanic eax := by
  unfold handle_syscall
  rw [if_neg h1, if_neg h2, if_neg h3, if_neg h4]

/-- Witness for `handle_syscall_full_eax` at EAX = 0x102. -/
theorem handle_syscall_full_eax_witness :
    handle_syscall 0x102 7 6 = SyscallAction.unimplementedPanic 0x102 :=
  handle_syscall_full_eax 0x102 7 6 (by decide) (by decide) (by decide)
    (by decide)

/-- Claim C6: for every task built by `Task::new`, the value `switch_to`
writes into TSS.ESP0 — `kernel_sp + 20 + size_of::<InterruptContext>()` —
is exactly the top of that task's kernel stack (its base virtual address
plus one page): the 20-byte prologue (saved DS, three padding words, the
`resume_from_intr` return address) plus one interrupt context is exactly
what `Task::new` pushed below the stack top. -/
theorem task_esp0_is_kernel_stack_top (kernelStackBase : Nat) :
    switchToEsp0 (taskNewKernelSp kernelStackBase) =
      (kernelStackBase + 1 * PAGE_SIZE) % 2 ^ 32 := by
  unfold switchToEsp0 taskNewKernelSp u32sub interruptContextSize
    registersSize interruptFrameSize PAGE_SIZE
  omega

/-- Claim C8: `PhysMem::translate` checks the region with the wrapping
32-bit sum `paddr.0 + (size as u32)` (the kernel is a release build), so a
region whose exact sum exceeds the identity window but whose 32-bit sum
wraps to a small value passes the check and gets a pointer instead of the
fatal panic the claim requires: at paddr = 0xfffff000, size = 0x2000 the
exact sum 0x100001000 exceeds the 128 MiB window, yet the code returns a
pointer. -/
theorem phys_translate_wrap_escapes_check :
    0xfffff000 + 0x2000 > KERNEL_PHYS_WINDOW_SIZE ∧
    PhysMem.translate 0xfffff000 0x2000 = some 0xfffff000 := by
  constructor
  · decide
  · decide

/-- Claim C10, counterexample: `Task::new` does not truncate long names; it
panics on any name longer than 16 bytes (here a 17-byte name). -/
theorem taskName_long_name_panics :
    taskName (List.replicate 17 0x41) = none := by
  decide

/-- Claim C10, amended: `Task::new` is fatal (panics with "Task name len >
16") for every name longer than 16 bytes; for a name of at most 16 bytes it
stores the name zero-padded to exactly 16 bytes. -/
theorem taskName_pads (name : List Nat) (h : name.length ≤ 16) :
    taskName name = some (name ++ List.replicate (16 - name.length) 0) ∧
    (name ++ List.replicate (16 - name.length) 0).length = 16 := by
  constructor
  · unfold taskName
    rw [if_neg (by omega)]
  · simp only [List.length_append, List.length_replicate]
    omega

/-- Witness for `taskName_pads` on the two-byte name [0x68, 0x69]. -/
theorem taskName_pads_witness :
    taskName [0x68, 0x69] = some ([0x68, 0x69] ++ List.replicate 14 0) ∧
    (([0x68, 0x69] : List Nat) ++ List.replicate 14 0).length = 16 :=
  taskName_pads [0x68, 0x69] (by decide)

/-- Claim C1: the code never tests PAGE_PRESENT during the walk. Over a
page directory at 0x1000 in all-zero physical memory, the PDE for vaddr 0
reads as raw 0 — its present bit is clear — yet `translate` reports every
component of the `Mapping` as `Some`: the PDE slot 0x1000, `pte` as the
address bits of the absent PDE (0) and `page` as the address bits of the
word read at physical 0. The claim requires `pte` and `page` to be `None`
here. -/
theorem translate_ignores_not_present :
    PageDirectory.get_entry zeroMem 0x1000 0 = some 0 ∧
    0 &&& PAGE_PRESENT = 0 ∧
    PageDirectory.translate zeroMem 0x1000 0 =
      some { pde := some 0x1000, pte := some 0, page := some 0 } := by
  decide

set_option maxRecDepth 4000 in
/-- Claim C2: `free_virt_pages` is not fatal on a page that is not present
in the page tables. In the `memC2` scenario the PTE backing
KERNEL_VMEM_BASE is raw 0x500000 — present bit clear — yet the dead
`mapping.page.is_none()` check never fires (translate always returns
`Some`), so the call frees the frame 0x500000 named by the address bits of
the non-present entry (allocator byte 0x100 is cleared) and returns
normally, clearing the per-space bitmap byte. The bitmaps here are the
prefixes of the in-kernel arrays that the call inspects: allocator bytes
0..0x100 all in use, per-space bitmap byte 0 in use. -/
theorem free_virt_pages_nonpresent_no_panic :
    memC2 0x2dc0 &&& PAGE_PRESENT = 0 ∧
    VirtMem.free_virt_pages memC2 0x1000 (List.replicate 257 1) [1]
      0x13370000 1 = some ((List.replicate 257 1).set 256 0, [0]) := by
  decide

/-- Claim C3: the handler's range check `id < 0 || id > MAX_SHARED_MAPPINGS`
does not panic for id = 10: the check passes (10 is not greater than 10)
and the 10-entry MAPPINGS table is then indexed at 10, so the fatal stop
for id = 10 is the array bounds check after the table is indexed, not the
range check before it; id = 11 by contrast is caught by the range check. -/
theorem mmap_shared_id_ten_passes_range_check :
    sys_mmap_shared [0] (List.replicate 10 none) 0x10000000 10 =
      Except.error MmapPanic.indexOutOfBounds ∧
    sys_mmap_shared [0] (List.replicate 10 none) 0x10000000 11 =
      Except.error MmapPanic.invalidId := by
  constructor
  · rfl
  · rfl

/-- Claim C7: at the boundary address BASE_ALLOCATOR + BITMAP_SIZE * 4096 =
0x7fe0000, the alignment check and the range check of `free_phys` both pass
(the source compares `index > BITMAP_SIZE`, which admits index =
BITMAP_SIZE), yet the computed bitmap index equals BITMAP_SIZE — the length
of ALLOCATOR_BITMAP — so the access `ALLOCATOR_BITMAP[index]` that follows
is out of bounds, contradicting the claim that the index is in bounds
whenever the checks pass. The final conjunct runs the whole function on a
full-length bitmap: it stops (via the bounds check), not via its own
guards. -/
theorem free_phys_boundary_index_out_of_bounds :
    0x7fe0000 % 0x1000 = 0 ∧
    ¬ (freePhysIndex 0x7fe0000 > BITMAP_SIZE ∨
        (0x7fe0000 : Nat) < BASE_ALLOCATOR) ∧
    freePhysIndex 0x7fe0000 = BITMAP_SIZE ∧
    free_phys (List.replicate BITMAP_SIZE 1) 0x7fe0000 = none := by
  refine ⟨by decide, by decide, by decide, ?_⟩
  unfold free_phys
  rw [if_neg (by decide), if_neg (by decide),
    if_neg (by simp only [List.length_replicate]; decide)]

/-- Helper: reading back the byte just written by `List.set`. -/
theorem getD_set_self : ∀ (l : List Nat) (i : Nat), i < l.length →
    ∀ x d, (l.set i x).getD i d = x
  | [], _, h, _, _ => absurd h (by simp)
  | _ :: _, 0, _, _, _ => by simp
  | _ :: l, i + 1, h, x, d => by
    simpa using getD_set_self l i (by simpa using h) x d

/-- Helper: `List.set` leaves other indices unchanged. -/
theorem getD_set_ne : ∀ (l : List Nat) (i j : Nat), i ≠ j →
    ∀ x d, (l.set i x).getD j d = l.getD j d
  | [], _, _, _, _, _ => by simp
  | _ :: _, 0, 0, h, _, _ => absurd rfl h
  | _ :: _, 0, _ + 1, _, _, _ => by simp
  | _ :: _, _ + 1, 0, _, _, _ => by simp
  | _ :: l, i + 1, j + 1, h, x, d => by
    simpa using getD_set_ne l i j (fun hc => h (by omega)) x d

/-- The index returned by the bitmap scan is in bounds, holds a free byte,
and every smaller index holds a used byte. -/
theorem findFreeIndex_some {s : List Nat} {i : Nat}
    (h : findFreeIndex s = some i) :
    i < s.length ∧ s.getD i 1 = 0 ∧ ∀ j, j < i → s.getD j 1 ≠ 0 := by
  induction s generalizing i with
  | nil => simp [findFreeIndex] at h
  | cons b rest ih =>
    by_cases hb : b = 0
    · simp [findFreeIndex, hb] at h
      subst h
      refine ⟨by simp, by simpa using hb, ?_⟩
      intro j hj
      omega
    · simp [findFreeIndex, hb] at h
      obtain ⟨i', hi', rfl⟩ := h
      obtain ⟨h1, h2, h3⟩ := ih hi'
      refine ⟨by simpa using h1, by simpa using h2, ?_⟩
      intro j hj
      cases j with
      | zero => simpa using hb
      | succ k =>
        rw [List.getD_cons_succ]
        exact h3 k (by omega)

/-- When the scan fails, every byte of the bitmap is non-zero. -/
theorem findFreeIndex_none {s : List Nat} (h : findFreeIndex s = none) :
    ∀ i, i < s.length → s.getD i 1 ≠ 0 := by
  induction s with
  | nil => simp
  | cons b rest ih =>
    intro i hi
    by_cases hb : b = 0
    · simp [findFreeIndex, hb] at h
    · cases i with
      | zero => simpa using hb
      | succ k =>
        simp only [findFreeIndex, hb, if_false, Option.map_eq_none'] at h
        rw [List.getD_cons_succ]
        exact ih h k (by simpa using hi)

/-- Inversion of a successful `alloc_phys`. -/
theorem alloc_phys_some {s : List Nat} {a : Nat} {s1 : List Nat}
    (h : alloc_phys s = some (a, s1)) :
    ∃ i, findFreeIndex s = some i ∧ a = BASE_ALLOCATOR + i * PAGE_SIZE ∧
      s1 = s.set i 1 := by
  unfold alloc_phys at h
  cases hf : findFreeIndex s with
  | none => rw [hf] at h; exact absurd h (by simp)
  | some i =>
    rw [hf] at h
    simp only [Option.some.injEq, Prod.mk.injEq] at h
    exact ⟨i, rfl, h.1.symm, h.2.symm⟩

/-- Inversion of a successful `free_phys`. -/
theorem free_phys_some {s s1 : List Nat} {b : Nat}
    (h : free_phys s b = some s1) :
    b % 0x1000 = 0 ∧ BASE_ALLOCATOR ≤ b ∧ freePhysIndex b < s.length ∧
    s.getD (freePhysIndex b) 1 = 1 ∧ s1 = s.set (freePhysIndex b) 0 := by
  unfold free_phys at h
  split at h
  · exact absurd h (by simp)
  · split at h
    · exact absurd h (by simp)
    · split at h
      · split at h
        · exact absurd h (by simp)
        · rename_i h1 h2 h3 h4
          refine ⟨by omega, by omega, h3, by omega, ?_⟩
          simpa using h.symm
      · exact absurd h (by simp)

/-- With the caller's `u32` bound, the wrapping index computation is the
exact one. -/
theorem freePhysIndex_eq_div {b : Nat} (h1 : BASE_ALLOCATOR ≤ b)
    (h2 : b < 2 ^ 32) : freePhysIndex b = (b - BASE_ALLOCATOR) / 0x1000 := by
  have h1' : 0x400000 ≤ b := h1
  have e32 : (2 : Nat) ^ 32 = 4294967296 := by norm_num
  unfold freePhysIndex u32sub BASE_ALLOCATOR
  rw [Nat.shiftRight_eq_div_pow, show (2 : Nat) ^ 12 = 0x1000 from by
    norm_num, e32]
  rw [e32] at h2
  omega

/-- A successfully freed, page-aligned, in-range address is recovered from
its bitmap index. -/
theorem free_addr_eq {b i : Nat} (hal : b % 0x1000 = 0)
    (hge : BASE_ALLOCATOR ≤ b) (hlt : b < 2 ^ 32)
    (hidx : freePhysIndex b = i) : b = BASE_ALLOCATOR + i * PAGE_SIZE := by
  rw [freePhysIndex_eq_div hge hlt] at hidx
  have hge' : 0x400000 ≤ b := hge
  have hidx' : (b - 0x400000) / 0x1000 = i := hidx
  show b = 0x400000 + i * 0x1000
  omega

/-- An allocate or free request against the physical allocator (the two
public mutating operations of physmem.rs). -/
inductive PhysOp where
  | alloc : PhysOp
  | free (addr : Nat) : PhysOp
deriving DecidableEq

/-- Run one allocator operation; `none` propagates a panic. -/
def runOp (s : List Nat) : PhysOp → Option (List Nat)
  | PhysOp.alloc => (alloc_phys s).map Prod.snd
  | PhysOp.free a => free_phys s a

/-- Run a sequence of allocator operations. -/
def runOps : List Nat → List PhysOp → Option (List Nat)
  | s, [] => some s
  | s, op :: rest =>
    match runOp s op with
    | some s1 => runOps s1 rest
    | none => none

/-- One operation that is not `free` of `BASE_ALLOCATOR + i * PAGE_SIZE`
keeps bitmap byte `i` non-zero. -/
theorem usedAt_runOp {s s1 : List Nat} {i : Nat} {op : PhysOp}
    (hop : runOp s op = some s1)
    (hne : op ≠ PhysOp.free (BASE_ALLOCATOR + i * PAGE_SIZE))
    (hb : ∀ b, op = PhysOp.free b → b < 2 ^ 32)
    (h : s.getD i 1 ≠ 0) : s1.getD i 1 ≠ 0 := by
  cases op with
  | alloc =>
    unfold runOp at hop
    cases ha : alloc_phys s with
    | none => rw [ha] at hop; exact absurd hop (by simp)
    | some p =>
      rw [ha] at hop
      simp only [Option.map_some', Option.some.injEq] at hop
      obtain ⟨j, hf, _, hset⟩ :=
        alloc_phys_some (show alloc_phys s = some (p.1, p.2) from by
          rw [ha])
      rw [← hop, hset]
      by_cases hji : j = i
      · subst hji
        rw [getD_set_self s j (findFreeIndex_some hf).1 1 1]
        omega
      · rw [getD_set_ne s j i hji 1 1]
        exact h
  | free b =>
    unfold runOp at hop
    obtain ⟨hal, hge, _, _, hset⟩ := free_phys_some hop
    have hblt : b < 2 ^ 32 := hb b rfl
    by_cases hji : freePhysIndex b = i
    · exact absurd (by rw [free_addr_eq hal hge hblt hji]) hne
    · rw [hset, getD_set_ne s (freePhysIndex b) i hji 0 1]
      exact h

/-- A whole successful operation sequence containing no `free` of
`BASE_ALLOCATOR + i * PAGE_SIZE` keeps bitmap byte `i` non-zero. -/
theorem usedAt_runOps {i : Nat} :
    ∀ (ops : List PhysOp) (s s2 : List Nat),
    runOps s ops = some s2 →
    PhysOp.free (BASE_ALLOCATOR + i * PAGE_SIZE) ∉ ops →
    (∀ b, PhysOp.free b ∈ ops → b < 2 ^ 32) →
    s.getD i 1 ≠ 0 → s2.getD i 1 ≠ 0
  | [], s, s2, h, _, _, hu => by
    unfold runOps at h
    simp only [Option.some.injEq] at h
    rwa [← h]
  | op :: rest, s, s2, h, hno, hb, hu => by
    unfold runOps at h
    cases hop : runOp s op with
    | none => rw [hop] at h; exact absurd h (by simp)
    | some s1 =>
      rw [hop] at h
      have h1 : s1.getD i 1 ≠ 0 :=
        usedAt_runOp hop
          (fun hc => hno (by rw [hc]; exact List.mem_cons_self _ _))
          (fun b hb' => hb b (by rw [hb']; exact List.mem_cons_self _ _)) hu
      exact usedAt_runOps rest s1 s2 h
        (fun hc => hno (List.mem_cons_of_mem _ hc))
        (fun b hbm => hb b (List.mem_cons_of_mem _ hbm)) h1

/-- Claim C9: `alloc_phys` returns `BASE_ALLOCATOR + i * 4096` for the
lowest index `i` of a free bitmap byte and marks that byte used; it panics
exactly when no byte is free; and along any successful sequence of
`alloc_phys` / `free_phys` calls (free addresses being `u32` values), a
second `alloc_phys` never returns an address already returned unless a
`free_phys` of that address happened in between. -/
theorem alloc_phys_spec :
    (∀ s a s1, alloc_phys s = some (a, s1) →
      ∃ i, i < s.length ∧ s.getD i 1 = 0 ∧ (∀ j, j < i → s.getD j 1 ≠ 0) ∧
        a = BASE_ALLOCATOR + i * PAGE_SIZE ∧ s1 = s.set i 1) ∧
    (∀ s, (∀ i, i < s.length → s.getD i 1 ≠ 0) → alloc_phys s = none) ∧
    (∀ s s1 s2 a ops, alloc_phys s = some (a, s1) →
      runOps s1 ops = some s2 → PhysOp.free a ∉ ops →
      (∀ b, PhysOp.free b ∈ ops → b < 2 ^ 32) →
      ∀ r, alloc_phys s2 = some r → r.1 ≠ a) := by
  refine ⟨?_, ?_, ?_⟩
  · intro s a s1 h
    obtain ⟨i, hf, ha, hs⟩ := alloc_phys_some h
    obtain ⟨h1, h2, h3⟩ := findFreeIndex_some hf
    exact ⟨i, h1, h2, h3, ha, hs⟩
  · intro s hall
    cases hf : findFreeIndex s with
    | none => unfold alloc_phys; rw [hf]
    | some i =>
      obtain ⟨h1, h2, _⟩ := findFreeIndex_some hf
      exact absurd h2 (hall i h1)
  · intro s s1 s2 a ops h1 h2 hno hbound r hr heq
    obtain ⟨i, hf, ha, hset⟩ := alloc_phys_some h1
    have hi : i < s.length := (findFreeIndex_some hf).1
    have hu1 : s1.getD i 1 ≠ 0 := by
      rw [hset, getD_set_self s i hi 1 1]
      omega
    have hu2 : s2.getD i 1 ≠ 0 :=
      usedAt_runOps ops s1 s2 h2 (ha ▸ hno) hbound hu1
    obtain ⟨j, hfj, haj, _⟩ :=
      alloc_phys_some (show alloc_phys s2 = some (r.1, r.2) from by rw [hr])
    have hj0 : s2.getD j 1 = 0 := (findFreeIndex_some hfj).2.1
    have hji : j = i := by
      have hsame : BASE_ALLOCATOR + j * PAGE_SIZE =
          BASE_ALLOCATOR + i * PAGE_SIZE := by
        rw [← haj, ← ha, heq]
      have hsame' : 0x400000 + j * 0x1000 = 0x400000 + i * 0x1000 := hsame
      omega
    rw [hji] at hj0
    exact hu2 hj0

/-- Witness for the freshness part of `alloc_phys_spec`: starting from the
two-frame bitmap [0, 0], the first allocation returns 0x400000; with no
intervening free, the next allocation returns 0x401000, not 0x400000. -/
theorem alloc_phys_spec_witness :
    alloc_phys [1, 0] = some (0x401000, [1, 1]) ∧
    (0x401000 : Nat) ≠ 0x400000 := by
  refine ⟨by decide, ?_⟩
  exact alloc_phys_spec.2.2 [0, 0] [1, 0] [1, 0] 0x400000 [] (by decide) rfl
    (by simp) (by simp) (0x401000, [1, 1]) (by decide)

end Secos
